import Mathlib

/-!
Verification of the uniffi-rs interface-compiler core: a shallow embedding of
the error-definition converters (`uniffi_bindgen/src/interface/error.rs`),
the canonical-UDL backend filters and writer
(`uniffi_bindgen/src/bindings/udl/gen_udl.rs`, `mod.rs`) and the
version-compatibility check (`cargo_uniffi/src/commands/check.rs`),
together with theorems settling the specification claims about them.
-/

/-! ## Type system

Embeds the api-level `Type` enum of `uniffi_bindgen::interface`.  The enum
declaration itself is outside the provided sources, but its complete variant
set is witnessed by the exhaustive (wildcard-free) `match` in
`gen_udl.rs::type_udl` and by spec §3. -/

inductive Ty where
  | uint8
  | uint16
  | uint32
  | uint64
  | int8
  | int16
  | int32
  | int64
  | float32
  | float64
  | boolean
  | string
  | enum (name : String)
  | record (name : String)
  | object (name : String)
  | error (name : String)
  | callbackInterface (name : String)
  | optional (inner : Ty)
  | sequence (inner : Ty)
  | map (value : Ty)
deriving DecidableEq, Repr

/-- Embeds `gen_udl.rs::filters::type_udl` (returns `Result<String, askama::Error>`;
the error side is modelled as `String`). -/
def type_udl : Ty → Except String String
  | .uint8 => .ok "u8"
  | .uint16 => .ok "u16"
  | .uint32 => .ok "u32"
  | .uint64 => .ok "u64"
  | .int8 => .ok "i8"
  | .int16 => .ok "i16"
  | .int32 => .ok "i32"
  | .int64 => .ok "i64"
  | .float32 => .ok "f32"
  | .float64 => .ok "f64"
  | .boolean => .ok "boolean"
  | .string => .ok "string"
  | .enum name => .ok name
  | .record name => .ok name
  | .object name => .ok name
  | .error name => .ok name
  | .callbackInterface name => .ok name
  | .optional t => do
      let s ← type_udl t
      pure (s ++ "?")
  | .sequence t => do
      let s ← type_udl t
      pure ("sequence<" ++ s ++ ">")
  | .map t => do
      let s ← type_udl t
      pure ("record<DOMString, " ++ s ++ ">")

/-- Embeds `gen_udl.rs::filters::return_type_udl`. -/
def return_type_udl : Option Ty → Except String String
  | none => .ok "void"
  | some t => type_udl t

/-! ## Error definitions (`interface/error.rs`) -/

/-- Embeds the `Error` struct of `interface/error.rs`
(`name: String, values: Vec<String>, docs: Vec<String>`). -/
structure ErrorDef where
  name : String
  values : List String
  docs : List String
deriving DecidableEq, Repr

/-- Embeds the relevant shape of `weedle::EnumDefinition`: the identifier and
the ordered member labels (`self.values.body.list`, each mapped via
`v.0.to_string()`). -/
structure EnumDefinition where
  identifier : String
  values : List String
deriving DecidableEq, Repr

/-- Embeds `impl APIConverter<Error> for weedle::EnumDefinition`: member labels
become variant names verbatim, `docs` is the empty vector.  The
`&mut ComponentInterface` argument is unused in the source and omitted. -/
def EnumDefinition.convert (e : EnumDefinition) : Except String ErrorDef :=
  .ok { name := e.identifier, values := e.values, docs := [] }

/-- Embeds the relevant shape of `syn::Fields`: only whether the variant is a
unit variant matters (`matches!(v.fields, syn::Fields::Unit)`). -/
inductive SynFields where
  | named
  | unnamed
  | unit
deriving DecidableEq, Repr

/-- Embeds the relevant shape of `syn::Variant`.  `docs` is the result of the
(successful) `synner::Attributes::try_from(&v.attrs)` documentation
extraction, whose own source is outside the provided files; the claims under
verification quantify over already-extracted doc lines. `discriminant` models
`Option<(Eq, Expr)>`: only `is_some` is inspected. -/
structure Variant where
  ident : String
  discriminant : Option Int
  fields : SynFields
  docs : List String
deriving DecidableEq, Repr

/-- Embeds the relevant shape of `syn::ItemEnum`: identifier, enum-level doc
lines (from `Attributes::try_from(&self.attrs)`), and ordered variants. -/
structure ItemEnum where
  ident : String
  docs : List String
  variants : List Variant
deriving DecidableEq, Repr

/-- The message of `bail!("Explicit enum discriminants are not supported")`. -/
def discriminantMsg : String := "Explicit enum discriminants are not supported"

/-- The message of `bail!("Error enum variants cannot currently have fields")`. -/
def fieldsMsg : String := "Error enum variants cannot currently have fields"

/-- The per-variant body of the `map` closure in
`impl APIConverter<Error> for &syn::ItemEnum`, with the mutable `docs`
vector threaded explicitly; `.collect::<Result<Vec<_>>>()` short-circuits at
the first error, which the recursion reproduces.  Returns the variant-name
list together with the final docs vector. -/
def convertVariants : List Variant → List String → Except String (List String × List String)
  | [], docs => .ok ([], docs)
  | v :: rest, docs =>
    if v.discriminant.isSome then
      .error discriminantMsg
    else if v.fields ≠ SynFields.unit then
      .error fieldsMsg
    else
      let docs := if v.docs.length > 0 then
        docs ++ [""] ++ ["  `" ++ v.ident ++ "`:"] ++ v.docs.map (fun ln => "      " ++ ln)
      else docs
      match convertVariants rest docs with
      | .error e => .error e
      | .ok (vals, docs) => .ok (v.ident :: vals, docs)

/-- Embeds `impl APIConverter<Error> for &syn::ItemEnum`; `docs` starts from
the enum-level attributes and is extended per documented variant. -/
def ItemEnum.convert (e : ItemEnum) : Except String ErrorDef :=
  match convertVariants e.variants e.docs with
  | .error msg => .error msg
  | .ok (vals, docs) => .ok { name := e.ident, values := vals, docs := docs }

/-! ## UDL backend writer (`bindings/udl/mod.rs`) -/

/-- A tiny file-system model for `write_bindings`: an association list from
path to file content, newest entry first. -/
def FileSys := List (String × String)

/-- Set (create or overwrite) the content of a path. -/
def fsSet (fs : FileSys) (path content : String) : FileSys :=
  (path, content) :: (fs : List (String × String)).filter (fun p => p.1 ≠ path)

/-- Read the content of a path, if present. -/
def fsGet (fs : FileSys) (path : String) : Option String :=
  ((fs : List (String × String)).find? (fun p => p.1 = path)).map Prod.snd

/-- Embeds `mod.rs::generate_udl_bindings`: the askama `UDLFile::render()`
outcome (the template itself is outside the provided sources, so the render
outcome is the parameter), with any render error mapped by
`.map_err(|_| anyhow!("failed to render UDL bindings"))`. -/
def generate_udl_bindings (render : Except String String) : Except String String :=
  match render with
  | .error _ => .error "failed to render UDL bindings"
  | .ok s => .ok s

/-- Embeds `mod.rs::write_bindings` as a file-system transition.  The source
order is respected: `File::create(&udl_file)` runs first (creating the file,
truncating existing content to empty), and only then is
`generate_udl_bindings(&ci)?` evaluated inside `write!`; on success the
complete rendered string is written.  `File::create` and the final `write!`
are modelled as succeeding; `ns` is `ci.namespace()`. -/
def write_bindings (render : Except String String) (ns : String) (fs : FileSys) :
    Except String Unit × FileSys :=
  let udl_file := ns ++ ".generated.udl"
  let fs1 := fsSet fs udl_file ""
  match generate_udl_bindings render with
  | .error e => (.error e, fs1)
  | .ok text => (.ok (), fsSet fs1 udl_file text)

/-! ## Version-compatibility check (`cargo_uniffi/src/commands/check.rs`) -/

/-- The text before the first version slot in the `bail!` message of the
version check (Rust string continuations `\` swallow the newline and the
following indentation). -/
def versionMsgPre : String :=
  "The crate depends on a different version of `uniffi` than the `cargo uniffi` command, so bindings generation probably won't work correctly. Please align the versions used by the crate (currently "

/-- The text between the two version slots of the version-check message. -/
def versionMsgMid : String := ") and by this command (currently "

/-- The text after the second version slot of the version-check message. -/
def versionMsgPost : String := ") and try again."

/-- Embeds the version-compatibility step of `check.rs::execute_command`
(lines 63–74): compare the dependency's resolved version string with this
tool's own version string; unequal strings fail with a message carrying both. -/
def check_uniffi_version (crate_uniffi_version our_uniffi_version : String) :
    Except String Unit :=
  if crate_uniffi_version ≠ our_uniffi_version then
    .error (versionMsgPre ++ crate_uniffi_version ++ versionMsgMid ++
      our_uniffi_version ++ versionMsgPost)
  else
    .ok ()

/-- The documentation block contributed by a single variant in the
embedded-attribute converter: nothing for an undocumented variant; otherwise a
blank line, the marker line and the variant's doc lines indented six spaces,
exactly as pushed by the `map` closure in `error.rs`. -/
def variantDocBlock (v : Variant) : List String :=
  if v.docs.length > 0 then
    [""] ++ ["  `" ++ v.ident ++ "`:"] ++ v.docs.map (fun ln => "      " ++ ln)
  else []

/-- A variant acceptable to the embedded-attribute error converter: no
explicit discriminant and unit fields. -/
def cleanVariant (v : Variant) : Prop :=
  v.discriminant = none ∧ v.fields = SynFields.unit

instance (v : Variant) : Decidable (cleanVariant v) := by
  unfold cleanVariant; infer_instance

/-! ## Theorems -/

theorem fsGet_fsSet (fs : FileSys) (p c : String) : fsGet (fsSet fs p c) p = some c := by
  simp [fsGet, fsSet]

theorem convertVariants_clean (vs : List Variant) (docs : List String)
    (h : ∀ u ∈ vs, cleanVariant u) :
    convertVariants vs docs =
      .ok (vs.map Variant.ident, docs ++ (vs.map variantDocBlock).flatten) := by
  induction vs generalizing docs with
  | nil => simp [convertVariants]
  | cons u rest ih =>
    have hu := h u (List.mem_cons_self u rest)
    have hrest : ∀ x ∈ rest, cleanVariant x := fun x hx => h x (List.mem_cons_of_mem _ hx)
    by_cases hdocs : u.docs.length > 0 <;>
      simp [convertVariants, hu.1, hu.2, ih _ hrest, variantDocBlock, hdocs]

theorem convertVariants_first_bad (pre : List Variant) (v : Variant)
    (post : List Variant) (docs : List String)
    (hpre : ∀ u ∈ pre, cleanVariant u)
    (hbad : v.discriminant.isSome = true ∨ v.fields ≠ SynFields.unit) :
    convertVariants (pre ++ v :: post) docs =
      .error (if v.discriminant.isSome then discriminantMsg else fieldsMsg) := by
  induction pre generalizing docs with
  | nil =>
    cases hd : v.discriminant.isSome with
    | true => simp [convertVariants, hd]
    | false =>
      have hf : v.fields ≠ SynFields.unit := by
        rcases hbad with hb | hb
        · exact absurd (hd ▸ hb) (by simp)
        · exact hb
      simp [convertVariants, hd, hf]
  | cons u rest ih =>
    have hu := hpre u (List.mem_cons_self u rest)
    have hrest : ∀ x ∈ rest, cleanVariant x := fun x hx => hpre x (List.mem_cons_of_mem _ hx)
    have ihd := fun d => ih d hrest
    by_cases hdocs : u.docs.length > 0 <;>
      simp [convertVariants, hu.1, hu.2, ihd, hdocs]

/-- Claim C4: converting the IDL enum `[Error] enum Testing` with member
labels one, two, one succeeds, producing an Error whose values sequence has
exactly the three labels in declaration order, duplicates preserved. -/
theorem duplicate_variants_allowed :
    EnumDefinition.convert ⟨"Testing", ["one", "two", "one"]⟩ =
      .ok ⟨"Testing", ["one", "two", "one"], []⟩ ∧
    (ErrorDef.values ⟨"Testing", ["one", "two", "one"], []⟩).length = 3 :=
  ⟨rfl, rfl⟩

/-- Claim C5: the two front-end converters agree on undocumented error enums:
the IDL form of Testing with members one, two and the attribute-marked enum
with two undocumented unit variants produce Error values equal in name and
variant sequence; the IDL path maps member labels to variant names verbatim
and always attaches an empty docs list. -/
theorem front_end_equivalence :
    (∀ e : EnumDefinition, EnumDefinition.convert e = .ok ⟨e.identifier, e.values, []⟩) ∧
    ∃ errIdl errAttr : ErrorDef,
      EnumDefinition.convert ⟨"Testing", ["one", "two"]⟩ = .ok errIdl ∧
      ItemEnum.convert
        ⟨"Testing", [], [⟨"one", none, .unit, []⟩, ⟨"two", none, .unit, []⟩]⟩ =
        .ok errAttr ∧
      errIdl.name = errAttr.name ∧ errIdl.values = errAttr.values :=
  ⟨fun _ => rfl,
    ⟨"Testing", ["one", "two"], []⟩, ⟨"Testing", ["one", "two"], []⟩,
    rfl, rfl, rfl, rfl⟩

/-- Claim C6: in the UDL backend's type filter, composite types render
recursively: Optional appends the question-mark marker to its inner
rendering, Sequence wraps its inner rendering in the sequence syntax, Map
renders with the fixed DOMString key; Optional(Sequence(String)) renders as
the sequence-of-string syntax followed by the marker. -/
theorem composite_type_rendering (t : Ty) :
    type_udl (.optional t) = (type_udl t).map (fun s => s ++ "?") ∧
    type_udl (.sequence t) = (type_udl t).map (fun s => "sequence<" ++ s ++ ">") ∧
    type_udl (.map t) = (type_udl t).map (fun s => "record<DOMString, " ++ s ++ ">") ∧
    type_udl (.optional (.sequence .string)) = .ok "sequence<string>?" := by
  refine ⟨?_, ?_, ?_, rfl⟩ <;> cases h : type_udl t <;> simp [type_udl, h, Except.map]

/-- Claim C7: the type-rendering mapping is total over the closed Type
variant set: `type_udl` returns a defined Ok result on every Type value,
however deeply nested. -/
theorem type_udl_total (t : Ty) : ∃ s, type_udl t = .ok s := by
  induction t with
  | optional t ih =>
    obtain ⟨s, hs⟩ := ih
    exact ⟨s ++ "?", by simp [type_udl, hs]⟩
  | sequence t ih =>
    obtain ⟨s, hs⟩ := ih
    exact ⟨"sequence<" ++ s ++ ">", by simp [type_udl, hs]⟩
  | map t ih =>
    obtain ⟨s, hs⟩ := ih
    exact ⟨"record<DOMString, " ++ s ++ ">", by simp [type_udl, hs]⟩
  | _ => exact ⟨_, rfl⟩

/-- Claim C9: the return-type filter maps an absent return type to the
explicit spelling void, and a present return type to exactly the type
filter's rendering. -/
theorem return_type_rendering :
    return_type_udl none = .ok "void" ∧
    ∀ t : Ty, return_type_udl (some t) = type_udl t :=
  ⟨rfl, fun _ => rfl⟩

/-- Claim C8: while pre-1.0 the compatibility check on a dependency's
resolved version string succeeds exactly when it equals this tool's own
version string character for character; otherwise it fails with a message
containing both version strings. -/
theorem version_check_exact (v w : String) :
    (check_uniffi_version v w = .ok () ↔ v = w) ∧
    (v ≠ w → ∃ a b c : String,
      check_uniffi_version v w = .error (a ++ v ++ b ++ w ++ c)) := by
  constructor
  · constructor
    · intro h
      by_contra hne
      simp [check_uniffi_version, hne] at h
    · intro h
      simp [check_uniffi_version, h]
  · intro hne
    exact ⟨versionMsgPre, versionMsgMid, versionMsgPost,
      by simp [check_uniffi_version, hne]⟩

/-- Witness for `version_check_exact` at distinct concrete version strings. -/
theorem version_check_exact_witness :
    ∃ a b c : String,
      check_uniffi_version "0.1.0" "0.2.0" = .error (a ++ "0.1.0" ++ b ++ "0.2.0" ++ c) :=
  (version_check_exact "0.1.0" "0.2.0").2 (by decide)

/-- Claim C2 (amended): converting an embedded-attribute enum of clean
variants merges documentation with the enum's own lines first, then per
documented variant a blank line, the backquoted marker line at two spaces,
and the variant's doc lines indented six spaces (four beyond the marker's
indent, not two as the spec example shows). -/
theorem error_docs_format (e : ItemEnum) (h : ∀ v ∈ e.variants, cleanVariant v) :
    ItemEnum.convert e =
      .ok ⟨e.ident, e.variants.map Variant.ident,
        e.docs ++ (e.variants.map variantDocBlock).flatten⟩ := by
  unfold ItemEnum.convert
  rw [convertVariants_clean _ _ h]

/-- Witness for `error_docs_format` at the spec's own example, showing the
six-space indentation actually produced. -/
theorem error_docs_format_witness :
    ItemEnum.convert ⟨"E", ["does a thing"], [⟨"v", none, SynFields.unit, ["detail"]⟩]⟩ =
      .ok ⟨"E", ["v"], ["does a thing", "", "  `v`:", "      detail"]⟩ :=
  error_docs_format
    ⟨"E", ["does a thing"], [⟨"v", none, SynFields.unit, ["detail"]⟩]⟩ (by decide)

/-- Counterexample to claim C2 as stated: the conversion of the spec's
example enum does not produce a doc line indented four spaces; the actual
indentation is six spaces. -/
theorem error_docs_format_cex :
    ItemEnum.convert ⟨"E", ["does a thing"], [⟨"v", none, SynFields.unit, ["detail"]⟩]⟩ =
      .ok ⟨"E", ["v"], ["does a thing", "", "  `v`:", "      detail"]⟩ ∧
    ItemEnum.convert ⟨"E", ["does a thing"], [⟨"v", none, SynFields.unit, ["detail"]⟩]⟩ ≠
      .ok ⟨"E", ["v"], ["does a thing", "", "  `v`:", "    detail"]⟩ := by
  constructor
  · rfl
  · intro hcontra
    rw [show ItemEnum.convert
        ⟨"E", ["does a thing"], [⟨"v", none, SynFields.unit, ["detail"]⟩]⟩ =
        .ok ⟨"E", ["v"], ["does a thing", "", "  `v`:", "      detail"]⟩ from rfl]
      at hcontra
    simp only [Except.ok.injEq, ErrorDef.mk.injEq] at hcontra
    exact absurd hcontra.2.2 (by decide)

/-- Claim C3 (amended): on the first offending variant, conversion of an
embedded-attribute enum fails with the condition citing that explicit
discriminants are not supported when the variant has a discriminant, and
with the distinct condition citing that variants cannot have fields when it
has payload fields; the two conditions are distinguishable, but neither
message includes the offending variant's name. -/
theorem malformed_error_distinct_conditions (e : ItemEnum) (pre : List Variant)
    (v : Variant) (post : List Variant)
    (hsplit : e.variants = pre ++ v :: post)
    (hpre : ∀ u ∈ pre, cleanVariant u) :
    (v.discriminant.isSome = true → ItemEnum.convert e = .error discriminantMsg) ∧
    (v.discriminant = none → v.fields ≠ SynFields.unit →
      ItemEnum.convert e = .error fieldsMsg) ∧
    discriminantMsg ≠ fieldsMsg := by
  refine ⟨?_, ?_, by decide⟩
  · intro hd
    have hcv := fun d => convertVariants_first_bad pre v post d hpre (Or.inl hd)
    simp [ItemEnum.convert, hsplit, hcv, hd]
  · intro hd hf
    have hcv := fun d => convertVariants_first_bad pre v post d hpre (Or.inr hf)
    simp [ItemEnum.convert, hsplit, hcv, hd]

/-- Witness for `malformed_error_distinct_conditions` at two concrete enums,
one violating each rule. -/
theorem malformed_error_distinct_conditions_witness :
    ItemEnum.convert ⟨"E", [], [⟨"BadDisc", some 1, SynFields.unit, []⟩]⟩ =
      .error discriminantMsg ∧
    ItemEnum.convert ⟨"F", [], [⟨"BadFields", none, SynFields.named, []⟩]⟩ =
      .error fieldsMsg := by
  constructor
  · exact (malformed_error_distinct_conditions
      ⟨"E", [], [⟨"BadDisc", some 1, SynFields.unit, []⟩]⟩ []
      ⟨"BadDisc", some 1, SynFields.unit, []⟩ [] rfl (by decide)).1 rfl
  · exact (malformed_error_distinct_conditions
      ⟨"F", [], [⟨"BadFields", none, SynFields.named, []⟩]⟩ []
      ⟨"BadFields", none, SynFields.named, []⟩ [] rfl (by decide)).2.1 rfl
      (by decide)

/-- Counterexample to claim C3 as stated: for an enum whose variant
BadVariant carries an explicit discriminant, conversion fails with the
fixed discriminant message, and that message does not contain the variant
name BadVariant, so the condition does not name the offending variant. -/
theorem malformed_error_no_variant_name_cex :
    ItemEnum.convert ⟨"E", [], [⟨"BadVariant", some 1, SynFields.unit, []⟩]⟩ =
      .error discriminantMsg ∧
    ¬ ("BadVariant".data <:+: discriminantMsg.data) := by
  exact ⟨rfl, by decide⟩

/-- Claim C10: when a variant violates both rules at once, the
explicit-discriminant condition wins: conversion checks the discriminant
before the fields and stops at the first offending variant in declaration
order, reporting exactly one violation. -/
theorem discriminant_before_fields (e : ItemEnum) (pre : List Variant)
    (v : Variant) (post : List Variant)
    (hsplit : e.variants = pre ++ v :: post)
    (hpre : ∀ u ∈ pre, cleanVariant u)
    (hd : v.discriminant.isSome = true) (_hf : v.fields ≠ SynFields.unit) :
    ItemEnum.convert e = .error discriminantMsg := by
  have hcv := fun d => convertVariants_first_bad pre v post d hpre (Or.inl hd)
  simp [ItemEnum.convert, hsplit, hcv, hd]

/-- Witness for `discriminant_before_fields`: a doubly-offending variant in
second position, after a clean documented variant and before another
offender, yields the discriminant message. -/
theorem discriminant_before_fields_witness :
    ItemEnum.convert ⟨"E", [],
      [⟨"Ok1", none, SynFields.unit, ["doc"]⟩,
       ⟨"Both", some 0, SynFields.named, []⟩,
       ⟨"Later", none, SynFields.unnamed, []⟩]⟩ = .error discriminantMsg :=
  discriminant_before_fields
    ⟨"E", [],
      [⟨"Ok1", none, SynFields.unit, ["doc"]⟩,
       ⟨"Both", some 0, SynFields.named, []⟩,
       ⟨"Later", none, SynFields.unnamed, []⟩]⟩
    [⟨"Ok1", none, SynFields.unit, ["doc"]⟩]
    ⟨"Both", some 0, SynFields.named, []⟩ [⟨"Later", none, SynFields.unnamed, []⟩]
    rfl (by decide) rfl (by decide)

/-- Claim C1 (amended): `write_bindings` produces the complete rendered text
before writing any content bytes — partially rendered text is never present
at the destination — but it creates (truncates) the destination file before
rendering, so a render failure leaves the target .generated.udl file empty,
not exactly as it was before the call. -/
theorem write_bindings_buffered (render : Except String String) (ns : String)
    (fs : FileSys) :
    (∀ e, render = .error e →
      (write_bindings render ns fs).1 = .error "failed to render UDL bindings" ∧
      fsGet (write_bindings render ns fs).2 (ns ++ ".generated.udl") = some "") ∧
    (∀ s, render = .ok s →
      (write_bindings render ns fs).1 = .ok () ∧
      fsGet (write_bindings render ns fs).2 (ns ++ ".generated.udl") = some s) := by
  constructor
  · intro e he
    subst he
    exact ⟨rfl, fsGet_fsSet _ _ _⟩
  · intro s hs
    subst hs
    exact ⟨rfl, fsGet_fsSet _ _ _⟩

/-- Witness for `write_bindings_buffered`: a failing render on an empty file
system reports the render error and leaves an empty destination file. -/
theorem write_bindings_buffered_witness :
    (write_bindings (Except.error "boom") "ns" ([] : FileSys)).1 =
      .error "failed to render UDL bindings" ∧
    fsGet (write_bindings (Except.error "boom") "ns" ([] : FileSys)).2
      ("ns" ++ ".generated.udl") = some "" :=
  (write_bindings_buffered (Except.error "boom") "ns" ([] : FileSys)).1 "boom" rfl

/-- Counterexample to claim C1 as stated: with pre-existing destination
content, a render failure leaves the destination file truncated to empty
rather than exactly as it was before the call, because the file is created
before the template is rendered. -/
theorem write_bindings_truncates_cex :
    fsGet ([("example.generated.udl", "old content")] : FileSys)
      "example.generated.udl" = some "old content" ∧
    (write_bindings (Except.error "boom") "example"
      ([("example.generated.udl", "old content")] : FileSys)).1 =
      .error "failed to render UDL bindings" ∧
    fsGet (write_bindings (Except.error "boom") "example"
      ([("example.generated.udl", "old content")] : FileSys)).2
      "example.generated.udl" = some "" ∧
    (some "" : Option String) ≠ some "old content" := by
  exact ⟨rfl, rfl, rfl, by decide⟩
